import Mathlib

/-!
Verification development for the finance-analysis repository.

The repository simulates recurring-investment strategies over daily OHLC price
series (`market-analysis.py`, `rolling-20year.py`, `stock-analysis.py`) and
computes total / annualized returns.  Prices are embedded as `Option ℚ`
(`none` models a pandas NaN), dates as plain calendar dates, and a price
series as a `List PriceBar` (sorted, per the data model).  The strategy
functions are embedded namespace-by-namespace, one namespace per source file,
keeping the Python names.  The return calculator works over `ℝ` because it
uses a real-exponent power (`np.power(x, 1/years)`).
-/

set_option maxHeartbeats 1000000

/-- A timezone-naive calendar date at daily granularity (the granularity of the
pandas `DatetimeIndex` used by all three scripts). -/
structure Date where
  year : Nat
  month : Nat
  day : Nat
deriving DecidableEq, Repr

/-- Lexicographic order on dates: `dateLe a b` holds when `a` is on or before
`b`.  This is the order pandas uses when slicing `data.loc[d:]`. -/
def dateLe (a b : Date) : Bool :=
  a.year < b.year ||
    (a.year == b.year &&
      (a.month < b.month || (a.month == b.month && a.day ≤ b.day)))

/-- One daily OHLC bar of the fetched price history.  A `none` field models a
missing value (pandas NaN) in that column. -/
structure PriceBar where
  date : Date
  openP : Option ℚ
  high : Option ℚ
  low : Option ℚ
  close : Option ℚ
deriving DecidableEq, Repr

/-- pandas `Series.min()` with default `skipna=True`: the minimum of the
present values, `none` when every value is missing. -/
def listMin : List ℚ → Option ℚ
  | [] => none
  | x :: xs =>
    match listMin xs with
    | none => some x
    | some m => some (min x m)

/-- The bars of `data` falling in calendar year `y` (one resample / groupby
bucket at yearly granularity). -/
def barsInYear (data : List PriceBar) (y : Nat) : List PriceBar :=
  data.filter (fun b => b.date.year == y)

/-- Linear index of a calendar month, used to enumerate monthly buckets. -/
def monthIdx (d : Date) : Nat := d.year * 12 + (d.month - 1)

/-- The first calendar day of the month with linear index `i` (the label that
`resample("MS")` attaches to a monthly bucket). -/
def monthStart (i : Nat) : Date := ⟨i / 12, i % 12 + 1, 1⟩

/-- The bars of `data` falling in the calendar month with linear index `i`. -/
def barsInMonth (data : List PriceBar) (i : Nat) : List PriceBar :=
  data.filter (fun b => monthIdx b.date == i)

/-- The calendar years spanned by the series, from the year of its first bar to
the year of its last bar inclusive: exactly the buckets that
`data.resample("YE")` / `data.resample("YS")` produce on a sorted index.
Empty for an empty series. -/
def yearRange (data : List PriceBar) : List Nat :=
  match data.head?, data.getLast? with
  | some f, some l => List.range' f.date.year (l.date.year - f.date.year + 1)
  | _, _ => []

/-- The calendar months (as linear indices) spanned by the series: the buckets
produced by `data.resample("MS")` on a sorted index. -/
def monthRange (data : List PriceBar) : List Nat :=
  match data.head?, data.getLast? with
  | some f, some l =>
      List.range' (monthIdx f.date) (monthIdx l.date - monthIdx f.date + 1)
  | _, _ => []

/-- The distinct calendar years of the bars, in order of first appearance:
the group keys of `data.groupby(data.index.to_period("Y"))`.  (On the sorted
series of the data model this is also ascending order.) -/
def groupYears (data : List PriceBar) : List Nat :=
  data.foldl (fun acc b => if b.date.year ∈ acc then acc else acc ++ [b.date.year]) []

/-- pandas `GroupBy.first()` on the `Open` column: the first non-missing open
in the bucket, `none` when every open is missing. -/
def firstOpen (bars : List PriceBar) : Option ℚ :=
  (bars.filterMap PriceBar.openP).head?

/-- pandas `agg({"Low": ["min", "idxmin"]})` on one bucket: the minimal
non-missing low together with the date of its first occurrence, `none` when
every low is missing. -/
def idxminLow (bars : List PriceBar) : Option (ℚ × Date) :=
  bars.foldl
    (fun acc b =>
      match b.low with
      | none => acc
      | some v =>
        match acc with
        | none => some (v, b.date)
        | some (m, d) => if v < m then some (v, b.date) else some (m, d))
    none

/-- pandas `agg({"High": ["max", "idxmax"]})` on one bucket: the maximal
non-missing high together with the date of its first occurrence. -/
def idxmaxHigh (bars : List PriceBar) : Option (ℚ × Date) :=
  bars.foldl
    (fun acc b =>
      match b.high with
      | none => acc
      | some v =>
        match acc with
        | none => some (v, b.date)
        | some (m, d) => if m < v then some (v, b.date) else some (m, d))
    none

/-- The accumulation loop shared (textually repeated) by
`rolling-20year.py:perfect_market_timing` / `immediate_investing` and
`stock-analysis.py:immediate_investing` / `dollar_cost_averaging`: walk the
bucket rows (label, optional reference price) in order; a missing price is
skipped (`if pd.isna(...): continue`), otherwise `amount / price` shares are
bought and a buy event `(label, price)` is appended. -/
def buyLoop {α : Type} (amount : ℚ) :
    List (α × Option ℚ) → ℚ → List (α × ℚ) → ℚ × List (α × ℚ)
  | [], shares, points => (shares, points)
  | (_, none) :: rest, shares, points => buyLoop amount rest shares points
  | (lbl, some p) :: rest, shares, points =>
      buyLoop amount rest (shares + amount / p) (points ++ [(lbl, p)])

/-- The accumulation loop of `stock-analysis.py:perfect_market_timing` /
`invest_at_peaks`: rows carry an aggregated (price, date) pair which is missing
as a whole when the bucket has no usable price (`pd.isna(price) or
pd.isna(date)`); otherwise shares are bought and `(date, price)` appended. -/
def aggLoop (amount : ℚ) :
    List (Option (ℚ × Date)) → ℚ → List (Date × ℚ) → ℚ × List (Date × ℚ)
  | [], shares, points => (shares, points)
  | none :: rest, shares, points => aggLoop amount rest shares points
  | some (p, d) :: rest, shares, points =>
      aggLoop amount rest (shares + amount / p) (points ++ [(d, p)])

namespace Rolling

/-- `rolling-20year.py` line 30: `yearly_lows = data.resample("YE")["Low"].min()`
— one row per calendar year in the series' span, holding the year's minimal
non-missing low (missing when the year has no usable low). -/
def yearly_lows (data : List PriceBar) : List (Nat × Option ℚ) :=
  (yearRange data).map
    (fun y => (y, listMin ((barsInYear data y).filterMap PriceBar.low)))

/-- `rolling-20year.py` line 53: `yearly_first_days =
data.resample("YS")["Open"].first()` — one row per calendar year, holding the
year's first non-missing open. -/
def yearly_first_days (data : List PriceBar) : List (Nat × Option ℚ) :=
  (yearRange data).map (fun y => (y, firstOpen (barsInYear data y)))

/-- `rolling-20year.py` lines 28-48, `perfect_market_timing`: buy
`annual_investment / low` at each year's low, then value all shares at the last
bar's close (`data["Close"].iloc[-1]`).  The outer `Option` is `none` exactly
when `iloc[-1]` would raise (empty frame); the inner `Option ℚ` is the
portfolio value, `none` when the last close is missing (NaN arithmetic). -/
def perfect_market_timing (data : List PriceBar) (annual_investment : ℚ) :
    Option (Option ℚ × List (Nat × ℚ)) :=
  match data.getLast? with
  | none => none
  | some lastBar =>
    let r := buyLoop annual_investment (yearly_lows data) 0 []
    some (lastBar.close.map (fun c => r.1 * c), r.2)

/-- `rolling-20year.py` lines 51-71, `immediate_investing`: buy at each year's
first open, then value all shares at the last bar's close. -/
def immediate_investing (data : List PriceBar) (annual_investment : ℚ) :
    Option (Option ℚ × List (Nat × ℚ)) :=
  match data.getLast? with
  | none => none
  | some lastBar =>
    let r := buyLoop annual_investment (yearly_first_days data) 0 []
    some (lastBar.close.map (fun c => r.1 * c), r.2)

/-- `rolling-20year.py` lines 20-25, `calculate_strategy_returns`: guard an
empty series (returning `0, []` without calling the strategy), otherwise defer
to the strategy function. -/
def calculate_strategy_returns (data : List PriceBar) (annual_investment : ℚ)
    (strategy_func : List PriceBar → ℚ → Option (Option ℚ × List (Nat × ℚ))) :
    Option (Option ℚ × List (Nat × ℚ)) :=
  if data.isEmpty then some (some 0, []) else strategy_func data annual_investment

end Rolling

namespace StockAnalysis

/-- `stock-analysis.py` line 49: `yearly_first_days =
data.groupby(data.index.to_period("Y")).first()`, restricted to the `Open`
column read by the loop — group keys are the years actually present. -/
def yearly_first_days (data : List PriceBar) : List (Nat × Option ℚ) :=
  (groupYears data).map (fun y => (y, firstOpen (barsInYear data y)))

/-- `stock-analysis.py` lines 47-69, `immediate_investing`: buy at each present
year's first non-missing open; the recorded buy date is
`row.name.to_timestamp()`, i.e. the period start (January 1 of the year), not
the date of the bar that supplied the open. -/
def immediate_investing (data : List PriceBar) (annual_investment : ℚ) :
    Option (Option ℚ × List (Date × ℚ)) :=
  match data.getLast? with
  | none => none
  | some lastBar =>
    let rows := (yearly_first_days data).map
      (fun r => ((⟨r.1, 1, 1⟩ : Date), r.2))
    let r := buyLoop annual_investment rows 0 []
    some (lastBar.close.map (fun c => r.1 * c), r.2)

/-- `stock-analysis.py` line 75: `monthly_first_days = data.resample("MS").first()`,
restricted to the `Open` column — one row per calendar month in the series'
span, labelled by the month's first calendar day. -/
def monthly_first_days (data : List PriceBar) : List (Date × Option ℚ) :=
  (monthRange data).map (fun i => (monthStart i, firstOpen (barsInMonth data i)))

/-- `stock-analysis.py` lines 72-94, `dollar_cost_averaging`: invest
`annual_investment / 12` at each month's first non-missing open, then value all
shares at the last bar's close. -/
def dollar_cost_averaging (data : List PriceBar) (annual_investment : ℚ) :
    Option (Option ℚ × List (Date × ℚ)) :=
  match data.getLast? with
  | none => none
  | some lastBar =>
    let monthly_investment := annual_investment / 12
    let r := buyLoop monthly_investment (monthly_first_days data) 0 []
    some (lastBar.close.map (fun c => r.1 * c), r.2)

/-- `stock-analysis.py` lines 21-24: yearly `min` / `idxmin` aggregation of the
`Low` column over the years present in the data. -/
def yearly_lows (data : List PriceBar) : List (Option (ℚ × Date)) :=
  (groupYears data).map (fun y => idxminLow (barsInYear data y))

/-- `stock-analysis.py` lines 19-44, `perfect_market_timing`: buy at each
present year's minimal low, on the date that low occurred, then value all
shares at the last bar's close. -/
def perfect_market_timing (data : List PriceBar) (annual_investment : ℚ) :
    Option (Option ℚ × List (Date × ℚ)) :=
  match data.getLast? with
  | none => none
  | some lastBar =>
    let r := aggLoop annual_investment (yearly_lows data) 0 []
    some (lastBar.close.map (fun c => r.1 * c), r.2)

/-- `stock-analysis.py` lines 99-102: yearly `max` / `idxmax` aggregation of
the `High` column over the years present in the data. -/
def yearly_peaks (data : List PriceBar) : List (Option (ℚ × Date)) :=
  (groupYears data).map (fun y => idxmaxHigh (barsInYear data y))

/-- `stock-analysis.py` lines 97-122, `invest_at_peaks`: buy at each present
year's maximal high, on the date that high occurred, then value all shares at
the last bar's close. -/
def invest_at_peaks (data : List PriceBar) (annual_investment : ℚ) :
    Option (Option ℚ × List (Date × ℚ)) :=
  match data.getLast? with
  | none => none
  | some lastBar =>
    let r := aggLoop annual_investment (yearly_peaks data) 0 []
    some (lastBar.close.map (fun c => r.1 * c), r.2)

end StockAnalysis

namespace MarketAnalysis

/-- `market-analysis.py` line 67: `yearly_lows = data.resample("YE")["Low"].min()`
(same aggregation as in `rolling-20year.py`). -/
def yearly_lows (data : List PriceBar) : List (Nat × Option ℚ) :=
  (yearRange data).map
    (fun y => (y, listMin ((barsInYear data y).filterMap PriceBar.low)))

/-- The loop of `market-analysis.py` lines 72-84: after buying at a year's low,
revalue the whole position at the last close of `data.loc[year_end:]` where
`year_end` is December 31 of that year — when that slice is empty the
portfolio value is left unchanged.  `pv : Option ℚ` is the running portfolio
value (`none` models a NaN value). -/
def pt_loop (data : List PriceBar) (annual_investment : ℚ) :
    List (Nat × Option ℚ) → ℚ → Option ℚ → Option ℚ
  | [], _, pv => pv
  | (_, none) :: rest, shares, pv => pt_loop data annual_investment rest shares pv
  | (y, some p) :: rest, shares, pv =>
    let shares2 := shares + annual_investment / p
    let future := data.filter (fun b => dateLe ⟨y, 12, 31⟩ b.date)
    match future.getLast? with
    | none => pt_loop data annual_investment rest shares2 pv
    | some lb => pt_loop data annual_investment rest shares2
        (lb.close.map (fun c => shares2 * c))

/-- `market-analysis.py` lines 65-86, `perfect_market_timing`: unlike the other
two files, this version values the portfolio inside the loop and only returns
the portfolio value (it keeps no buy-event list). -/
def perfect_market_timing (data : List PriceBar) (annual_investment : ℚ) :
    Option ℚ :=
  pt_loop data annual_investment (yearly_lows data) 0 (some 0)

end MarketAnalysis

/-- `rolling-20year.py` lines 74-90 and (identically) `stock-analysis.py` lines
215-229, `calculate_returns`: total percentage return and annualized (CAGR)
percentage return.  `^` is the real-exponent power embedding `np.power`. -/
noncomputable def calculate_returns (final_value total_invested years : ℝ) :
    ℝ × ℝ :=
  if total_invested = 0 ∨ years = 0 then (0, 0)
  else
    ((final_value - total_invested) / total_invested * 100,
      if final_value ≤ 0 then -100
      else ((final_value / total_invested) ^ (1 / years) - 1) * 100)

/-- The buy events the shared loop produces: one per bucket row whose reference
price is present, labelled by the row's bucket label. -/
def validBuys {α : Type} (rows : List (α × Option ℚ)) : List (α × ℚ) :=
  rows.filterMap (fun r => r.2.map (fun p => (r.1, p)))

/-- The total shares the shared loop buys: `amount / price` summed over the
rows whose reference price is present. -/
def sharesBought {α : Type} (amount : ℚ) (rows : List (α × Option ℚ)) : ℚ :=
  (validBuys rows).foldr (fun r acc => amount / r.2 + acc) 0

lemma validBuys_nil {α : Type} : validBuys (α := α) [] = [] := rfl

lemma validBuys_cons_none {α : Type} (l : α) (rows : List (α × Option ℚ)) :
    validBuys ((l, none) :: rows) = validBuys rows := rfl

lemma validBuys_cons_some {α : Type} (l : α) (p : ℚ) (rows : List (α × Option ℚ)) :
    validBuys ((l, some p) :: rows) = (l, p) :: validBuys rows := rfl

lemma sharesBought_nil {α : Type} (amount : ℚ) :
    sharesBought (α := α) amount [] = 0 := rfl

lemma sharesBought_cons_none {α : Type} (amount : ℚ) (l : α)
    (rows : List (α × Option ℚ)) :
    sharesBought amount ((l, none) :: rows) = sharesBought amount rows := rfl

lemma sharesBought_cons_some {α : Type} (amount : ℚ) (l : α) (p : ℚ)
    (rows : List (α × Option ℚ)) :
    sharesBought amount ((l, some p) :: rows) =
      amount / p + sharesBought amount rows := rfl

/-- The shared loop computes exactly the shares and buy events of the rows
with a present reference price, appended after the incoming accumulators. -/
lemma buyLoop_spec {α : Type} (amount : ℚ) (rows : List (α × Option ℚ)) :
    ∀ (s : ℚ) (pts : List (α × ℚ)),
      buyLoop amount rows s pts =
        (s + sharesBought amount rows, pts ++ validBuys rows) := by
  induction rows with
  | nil => intro s pts; simp [buyLoop, sharesBought_nil, validBuys_nil]
  | cons r rest ih =>
    intro s pts
    obtain ⟨l, o⟩ := r
    cases o with
    | none => simp [buyLoop, ih, sharesBought_cons_none, validBuys_cons_none]
    | some p =>
      simp [buyLoop, ih, sharesBought_cons_some, validBuys_cons_some, add_assoc]

lemma buyLoop_run {α : Type} (amount : ℚ) (rows : List (α × Option ℚ)) :
    buyLoop amount rows 0 [] = (sharesBought amount rows, validBuys rows) := by
  simp [buyLoop_spec]

/-- The labels of the produced buy events form a sublist of the labels of the
bucket rows: skipped buckets are simply dropped, no label is ever invented. -/
lemma validBuys_labels_sublist {α : Type} (rows : List (α × Option ℚ)) :
    List.Sublist ((validBuys rows).map Prod.fst) (rows.map Prod.fst) := by
  induction rows with
  | nil => simp [validBuys_nil]
  | cons r rest ih =>
    obtain ⟨l, o⟩ := r
    cases o with
    | none =>
      rw [validBuys_cons_none]
      simpa using ih.cons l
    | some p =>
      rw [validBuys_cons_some]
      simpa using ih.cons₂ l

/-- `rolling-20year.py:perfect_market_timing` on a non-empty series: no
exception, value = (sum of bought shares) × last close, events = exactly the
year buckets with a present yearly low. -/
lemma rolling_pt_spec (data : List PriceBar) (a : ℚ) (lastBar : PriceBar)
    (h : data.getLast? = some lastBar) :
    Rolling.perfect_market_timing data a =
      some (lastBar.close.map (fun c => sharesBought a (Rolling.yearly_lows data) * c),
            validBuys (Rolling.yearly_lows data)) := by
  simp [Rolling.perfect_market_timing, h, buyLoop_run]

/-- `rolling-20year.py:immediate_investing` on a non-empty series. -/
lemma rolling_ii_spec (data : List PriceBar) (a : ℚ) (lastBar : PriceBar)
    (h : data.getLast? = some lastBar) :
    Rolling.immediate_investing data a =
      some (lastBar.close.map (fun c => sharesBought a (Rolling.yearly_first_days data) * c),
            validBuys (Rolling.yearly_first_days data)) := by
  simp [Rolling.immediate_investing, h, buyLoop_run]

/-- `stock-analysis.py:dollar_cost_averaging` on a non-empty series. -/
lemma stock_dca_spec (data : List PriceBar) (a : ℚ) (lastBar : PriceBar)
    (h : data.getLast? = some lastBar) :
    StockAnalysis.dollar_cost_averaging data a =
      some (lastBar.close.map
              (fun c => sharesBought (a / 12) (StockAnalysis.monthly_first_days data) * c),
            validBuys (StockAnalysis.monthly_first_days data)) := by
  simp [StockAnalysis.dollar_cost_averaging, h, buyLoop_run]

/-- `stock-analysis.py:immediate_investing` on a non-empty series; the event
labels are the period-start dates `⟨year, 1, 1⟩`. -/
lemma stock_ii_spec (data : List PriceBar) (a : ℚ) (lastBar : PriceBar)
    (h : data.getLast? = some lastBar) :
    StockAnalysis.immediate_investing data a =
      some (lastBar.close.map
              (fun c => sharesBought a
                ((StockAnalysis.yearly_first_days data).map
                  (fun r => ((⟨r.1, 1, 1⟩ : Date), r.2))) * c),
            validBuys ((StockAnalysis.yearly_first_days data).map
              (fun r => ((⟨r.1, 1, 1⟩ : Date), r.2)))) := by
  simp [StockAnalysis.immediate_investing, h, buyLoop_run]

lemma rolling_yearly_lows_labels (data : List PriceBar) :
    (Rolling.yearly_lows data).map Prod.fst = yearRange data := by
  unfold Rolling.yearly_lows
  rw [List.map_map]
  have h : (Prod.fst ∘ fun y : Nat =>
      (y, listMin ((barsInYear data y).filterMap PriceBar.low))) = id := rfl
  rw [h, List.map_id]

lemma monthly_first_days_labels (data : List PriceBar) :
    (StockAnalysis.monthly_first_days data).map Prod.fst =
      (monthRange data).map monthStart := by
  unfold StockAnalysis.monthly_first_days
  rw [List.map_map]
  rfl

lemma yearRange_nodup (data : List PriceBar) : (yearRange data).Nodup := by
  unfold yearRange
  rcases data.head? with _ | f
  · simp
  · rcases data.getLast? with _ | l
    · simp
    · exact List.nodup_range' _ _

lemma monthRange_nodup (data : List PriceBar) : (monthRange data).Nodup := by
  unfold monthRange
  rcases data.head? with _ | f
  · simp
  · rcases data.getLast? with _ | l
    · simp
    · exact List.nodup_range' _ _

lemma monthStart_injective : Function.Injective monthStart := by
  intro i j h
  have h1 : i / 12 = j / 12 := congrArg Date.year h
  have h2 : i % 12 + 1 = j % 12 + 1 := congrArg Date.month h
  omega

/-- Buy events are at most as many as bucket rows (a row yields at most one
event). -/
lemma validBuys_length_le {α : Type} (rows : List (α × Option ℚ)) :
    (validBuys rows).length ≤ rows.length :=
  List.length_filterMap_le _ rows

/-- Each bucket label occurs in the produced events at most as often as in the
bucket rows. -/
lemma validBuys_count_le {α : Type} [DecidableEq α] (rows : List (α × Option ℚ))
    (lbl : α) :
    ((validBuys rows).map Prod.fst).count lbl ≤ ((rows.map Prod.fst).count lbl) :=
  (validBuys_labels_sublist rows).count_le lbl

/-- Comparing the shares bought from two reference-price columns over the same
bucket list: if bucket by bucket the first column buys at least as many shares
per contribution, the totals compare the same way. -/
lemma sharesBought_map_le (a : ℚ) (ys : List Nat) (f g : Nat → Option ℚ)
    (h : ∀ y ∈ ys, ∃ p q, f y = some p ∧ g y = some q ∧ a / q ≤ a / p) :
    sharesBought a (ys.map fun y => (y, g y)) ≤
      sharesBought a (ys.map fun y => (y, f y)) := by
  induction ys with
  | nil => simp [sharesBought_nil]
  | cons y ys ih =>
    obtain ⟨p, q, hf, hg, hle⟩ := h y (List.mem_cons_self y ys)
    have hrest := ih (fun z hz => h z (List.mem_cons_of_mem y hz))
    simp only [List.map_cons, hf, hg, sharesBought_cons_some]
    exact add_le_add hle hrest

/-- The hypothesis of the monotonicity claim, as the data model states it: the
year bucket has a present minimal low and a present first open, both positive,
with the low strictly below the open. -/
def goodBucket (data : List PriceBar) (y : Nat) : Bool :=
  match listMin ((barsInYear data y).filterMap PriceBar.low),
      firstOpen (barsInYear data y) with
  | some ml, some fo => decide (0 < ml) && decide (ml < fo)
  | _, _ => false

lemma goodBucket_spec {data : List PriceBar} {y : Nat}
    (h : goodBucket data y = true) :
    ∃ ml fo : ℚ,
      listMin ((barsInYear data y).filterMap PriceBar.low) = some ml ∧
      firstOpen (barsInYear data y) = some fo ∧ 0 < ml ∧ ml < fo := by
  unfold goodBucket at h
  rcases h1 : listMin ((barsInYear data y).filterMap PriceBar.low) with _ | ml
  · rw [h1] at h; simp at h
  · rcases h2 : firstOpen (barsInYear data y) with _ | fo
    · rw [h1, h2] at h; simp at h
    · rw [h1, h2] at h
      simp only [Bool.and_eq_true, decide_eq_true_eq] at h
      exact ⟨ml, fo, rfl, rfl, h.1, h.2⟩

/-- Relabelling bucket rows commutes with extracting the buy events. -/
lemma validBuys_map_label {α β : Type} (g : α → β) (rows : List (α × Option ℚ)) :
    validBuys (rows.map (fun r => (g r.1, r.2))) =
      rows.filterMap (fun r => r.2.map (fun p => (g r.1, p))) := by
  induction rows with
  | nil => rfl
  | cons r rest ih =>
    obtain ⟨l, o⟩ := r
    cases o with
    | none => simpa [validBuys_cons_none] using ih
    | some p => simp [validBuys_cons_some, ih]

lemma calculate_returns_100_1000_5 :
    calculate_returns 100 1000 5 =
      (-90, (((100:ℝ) / 1000) ^ ((1:ℝ) / 5) - 1) * 100) := by
  unfold calculate_returns
  rw [if_neg (by norm_num : ¬((1000:ℝ) = 0 ∨ (5:ℝ) = 0))]
  rw [if_neg (by norm_num : ¬((100:ℝ) ≤ 0))]
  norm_num

/-- C1, counterexample: `calculate_returns(100, 1000, 5)` does NOT return
`(-90, -100)`.  Since `final_value = 100 > 0` the code takes the CAGR branch,
whose result `((100/1000)^(1/5) - 1) * 100 ≈ -36.9` is strictly above `-100`
(the base of the power is positive, so the power is positive). -/
theorem c1_counterexample : calculate_returns 100 1000 5 ≠ (-90, -100) := by
  intro hc
  rw [calculate_returns_100_1000_5] at hc
  have h2 := congrArg Prod.snd hc
  simp only at h2
  have h3 : (0:ℝ) < ((100:ℝ) / 1000) ^ ((1:ℝ) / 5) :=
    Real.rpow_pos_of_pos (by norm_num) _
  nlinarith

/-- C1, amended: for the input `final_value = 100, total_invested = 1000,
years = 5` the total return is exactly `-90` percent while the annualized
return is the CAGR value `((100/1000)^(1/5) - 1) * 100` (≈ `-36.9`), which is
strictly greater than `-100`: only `final_value ≤ 0` clamps, and `100 > 0`
indeed uses the CAGR formula. -/
theorem c1_cagr_not_clamped :
    calculate_returns 100 1000 5 =
      (-90, (((100:ℝ) / 1000) ^ ((1:ℝ) / 5) - 1) * 100) ∧
    -100 < (((100:ℝ) / 1000) ^ ((1:ℝ) / 5) - 1) * 100 := by
  refine ⟨calculate_returns_100_1000_5, ?_⟩
  have h : (0:ℝ) < ((100:ℝ) / 1000) ^ ((1:ℝ) / 5) :=
    Real.rpow_pos_of_pos (by norm_num) _
  nlinarith

/-- C5: for any input with `total_invested ≠ 0` and `years ≠ 0` the total
return is `(final_value - total_invested) / total_invested * 100`, and the
annualized return is clamped to `-100` if `final_value ≤ 0` and otherwise is
the CAGR formula `((final_value / total_invested) ^ (1 / years) - 1) * 100`. -/
theorem c5_return_formula (final_value total_invested years : ℝ)
    (hti : total_invested ≠ 0) (hy : years ≠ 0) :
    calculate_returns final_value total_invested years =
      ((final_value - total_invested) / total_invested * 100,
        if final_value ≤ 0 then -100
        else ((final_value / total_invested) ^ (1 / years) - 1) * 100) := by
  unfold calculate_returns
  rw [if_neg (by simp [hti, hy])]

theorem c5_witness :
    (1000:ℝ) ≠ 0 ∧ (1:ℝ) ≠ 0 ∧
      calculate_returns 2000 1000 1 =
        (((2000:ℝ) - 1000) / 1000 * 100,
          if (2000:ℝ) ≤ 0 then -100
          else (((2000:ℝ) / 1000) ^ (1 / (1:ℝ)) - 1) * 100) :=
  ⟨by simp, by simp, c5_return_formula 2000 1000 1 (by simp) (by simp)⟩

/-- C6: whenever `total_invested = 0` or `years = 0`, `calculate_returns`
returns exactly `(0, 0)`; in the embedding it is a total function, so no
division error or other exception can occur. -/
theorem c6_degenerate_inputs (final_value total_invested years : ℝ)
    (h : total_invested = 0 ∨ years = 0) :
    calculate_returns final_value total_invested years = (0, 0) := by
  unfold calculate_returns
  rw [if_pos h]

theorem c6_witness :
    ((0:ℝ) = 0 ∨ (5:ℝ) = 0) ∧ calculate_returns 7 0 5 = (0, 0) :=
  ⟨Or.inl rfl, c6_degenerate_inputs 7 0 5 (Or.inl rfl)⟩

/-- C3: on a series with no bars, `calculate_strategy_returns` (the simulate
entry point of `rolling-20year.py`) returns portfolio value `0` and an empty
buy-event list for every strategy function, and — being the guarded branch
that never calls the strategy — cannot raise. -/
theorem c3_empty_series
    (strategy_func : List PriceBar → ℚ → Option (Option ℚ × List (Nat × ℚ)))
    (annual_investment : ℚ) :
    Rolling.calculate_strategy_returns [] annual_investment strategy_func =
      some (some 0, []) := rfl

/-- A single ten-dollar bar in March 2021, used to exhibit the final-bucket
valuation slip of `market-analysis.py`. -/
def c2Bar : PriceBar := ⟨⟨2021, 3, 4⟩, some 10, some 10, some 10, some 10⟩

/-- A single four-dollar bar in June 2020 (all positive prices). -/
def c8Bar : PriceBar := ⟨⟨2020, 6, 1⟩, some 4, some 4, some 4, some 4⟩

/-- A bar whose `Low` is present but negative (`-1`): present, hence NOT
skipped by the `pd.isna` check. -/
def c4Bar : PriceBar := ⟨⟨2020, 6, 1⟩, some 5, some 5, some (-1), some 5⟩

/-- A 2019 bar whose prices are all missing except the close. -/
def c4BarNaN : PriceBar := ⟨⟨2019, 3, 1⟩, none, none, none, some 2⟩

/-- A 2021 bar with all prices present. -/
def c4BarOk : PriceBar := ⟨⟨2021, 5, 2⟩, some 5, some 6, some 4, some 6⟩

/-- C2: `market-analysis.py`'s `perfect_market_timing` violates the valuation
contract.  On the one-bar series `c2Bar` (low 10, close 10, annual amount 100)
the claim demands `shares * last_close = (100/10) * 10 = 100` — which
`rolling-20year.py` indeed returns — but the `market-analysis.py` version
returns `0`: it revalues only via `data.loc[year_end:]` with `year_end` =
December 31 of the bucket's year, a slice that is empty here, so the shares
bought in the final bucket are never valued. -/
theorem c2_final_bucket_not_valued :
    Rolling.perfect_market_timing [c2Bar] 100 = some (some 100, [(2021, 10)]) ∧
    MarketAnalysis.perfect_market_timing [c2Bar] 100 = some 0 ∧
    (0 : ℚ) ≠ 100 := by
  refine ⟨?_, ?_, by norm_num⟩
  · norm_num [c2Bar, Rolling.perfect_market_timing, Rolling.yearly_lows, yearRange,
      barsInYear, listMin, buyLoop, List.range', List.filter, List.filterMap]
  · norm_num [c2Bar, MarketAnalysis.perfect_market_timing, MarketAnalysis.yearly_lows,
      MarketAnalysis.pt_loop, yearRange, barsInYear, listMin, dateLe, List.range',
      List.filter, List.filterMap]

/-- C4, counterexample: a bucket whose reference price is present but
non-positive (low = `-1`) is NOT skipped — the code only tests `pd.isna`.  On
the one-bar series `c4Bar` the claim demands zero BuyEvents, yet
`perfect_market_timing` emits the event `(2020, -1)` (buying `100 / -1 = -100`
shares, final value `-500`). -/
theorem c4_counterexample :
    Rolling.perfect_market_timing [c4Bar] 100 =
      some (some (-500), [(2020, -1)]) ∧
    Option.map (fun r => r.2) (Rolling.perfect_market_timing [c4Bar] 100) ≠
      some [] := by
  have h : Rolling.perfect_market_timing [c4Bar] 100 =
      some (some (-500), [(2020, -1)]) := by
    norm_num [c4Bar, Rolling.perfect_market_timing, Rolling.yearly_lows, yearRange,
      barsInYear, listMin, buyLoop, List.range', List.filter, List.filterMap]
  refine ⟨h, ?_⟩
  rw [h]
  simp

/-- C4, amended: only buckets whose reference price is missing (NaN) are
skipped.  On any non-empty series the call returns (no exception), its buy
events are exactly the bucket rows with a present reference price
(`validBuys`), and its share total sums `amount / price` over exactly those
rows (`sharesBought`) — so a missing-reference bucket contributes no BuyEvent
and no shares and all other buckets are unaffected.  Shown for
`rolling-20year.py:perfect_market_timing` (yearly buckets) and
`stock-analysis.py:dollar_cost_averaging` (monthly buckets). -/
theorem c4_nan_buckets_skipped (data : List PriceBar) (a : ℚ)
    (lastBar : PriceBar) (h : data.getLast? = some lastBar) :
    Rolling.perfect_market_timing data a =
      some (lastBar.close.map
              (fun c => sharesBought a (Rolling.yearly_lows data) * c),
            validBuys (Rolling.yearly_lows data)) ∧
    StockAnalysis.dollar_cost_averaging data a =
      some (lastBar.close.map
              (fun c => sharesBought (a / 12)
                (StockAnalysis.monthly_first_days data) * c),
            validBuys (StockAnalysis.monthly_first_days data)) :=
  ⟨rolling_pt_spec data a lastBar h, stock_dca_spec data a lastBar h⟩

theorem c4_witness :
    ([c4BarNaN, c4BarOk].getLast? = some c4BarOk) ∧
    (Rolling.perfect_market_timing [c4BarNaN, c4BarOk] 100 =
      some (c4BarOk.close.map
              (fun c => sharesBought 100 (Rolling.yearly_lows [c4BarNaN, c4BarOk]) * c),
            validBuys (Rolling.yearly_lows [c4BarNaN, c4BarOk])) ∧
     StockAnalysis.dollar_cost_averaging [c4BarNaN, c4BarOk] 100 =
      some (c4BarOk.close.map
              (fun c => sharesBought (100 / 12)
                (StockAnalysis.monthly_first_days [c4BarNaN, c4BarOk]) * c),
            validBuys (StockAnalysis.monthly_first_days [c4BarNaN, c4BarOk]))) ∧
    validBuys (Rolling.yearly_lows [c4BarNaN, c4BarOk]) = [(2021, 4)] := by
  refine ⟨rfl, c4_nan_buckets_skipped [c4BarNaN, c4BarOk] 100 c4BarOk rfl, ?_⟩
  norm_num [c4BarNaN, c4BarOk, Rolling.yearly_lows, yearRange, barsInYear, listMin,
    validBuys, List.range', List.filter, List.filterMap]

/-- C8: on the single positive bar `c8Bar` (all prices 4, annual amount 1200)
the yearly strategies of `rolling-20year.py` and `stock-analysis.py` do return
one BuyEvent at the bar's price and the claimed value
`(1200 / 4) * 4 = 1200`; but `market-analysis.py`'s `perfect_market_timing`
returns `0` instead of `1200` — its in-loop revaluation never fires because no
bar lies on or after December 31 of the bucket's year. -/
theorem c8_single_bar_divergence :
    Rolling.perfect_market_timing [c8Bar] 1200 =
      some (some 1200, [(2020, 4)]) ∧
    Rolling.immediate_investing [c8Bar] 1200 =
      some (some 1200, [(2020, 4)]) ∧
    StockAnalysis.invest_at_peaks [c8Bar] 1200 =
      some (some 1200, [(⟨2020, 6, 1⟩, 4)]) ∧
    MarketAnalysis.perfect_market_timing [c8Bar] 1200 = some 0 ∧
    (0 : ℚ) ≠ 1200 / 4 * 4 := by
  refine ⟨?_, ?_, ?_, ?_, by norm_num⟩
  · norm_num [c8Bar, Rolling.perfect_market_timing, Rolling.yearly_lows, yearRange,
      barsInYear, listMin, buyLoop, List.range', List.filter, List.filterMap]
  · norm_num [c8Bar, Rolling.immediate_investing, Rolling.yearly_first_days, yearRange,
      barsInYear, firstOpen, buyLoop, List.range', List.filter, List.filterMap]
  · norm_num [c8Bar, StockAnalysis.invest_at_peaks, StockAnalysis.yearly_peaks,
      groupYears, idxmaxHigh, barsInYear, aggLoop, List.filter, List.foldl]
  · norm_num [c8Bar, MarketAnalysis.perfect_market_timing, MarketAnalysis.yearly_lows,
      MarketAnalysis.pt_loop, yearRange, barsInYear, listMin, dateLe, List.range',
      List.filter, List.filterMap]

/-- C7: for any non-empty series, the buy events of
`rolling-20year.py:perfect_market_timing` are at most as many as the calendar
years spanned by the series (and each year labels at most one event), and the
buy events of `stock-analysis.py:dollar_cost_averaging` are at most as many as
the calendar months spanned (each month start labelling at most one event). -/
theorem c7_events_bounded (data : List PriceBar) (a : ℚ)
    (rPT : Option ℚ × List (Nat × ℚ)) (rDCA : Option ℚ × List (Date × ℚ))
    (hPT : Rolling.perfect_market_timing data a = some rPT)
    (hDCA : StockAnalysis.dollar_cost_averaging data a = some rDCA) :
    (rPT.2.length ≤ (yearRange data).length ∧
      ∀ y : Nat, (rPT.2.map Prod.fst).count y ≤ 1) ∧
    (rDCA.2.length ≤ (monthRange data).length ∧
      ∀ d : Date, (rDCA.2.map Prod.fst).count d ≤ 1) := by
  rcases hlast : data.getLast? with _ | lastBar
  · exfalso
    unfold Rolling.perfect_market_timing at hPT
    rw [hlast] at hPT
    exact Option.noConfusion hPT
  · have ePT : rPT =
        (lastBar.close.map
          (fun c => sharesBought a (Rolling.yearly_lows data) * c),
         validBuys (Rolling.yearly_lows data)) :=
      Option.some.inj (hPT.symm.trans (rolling_pt_spec data a lastBar hlast))
    have eDCA : rDCA =
        (lastBar.close.map
          (fun c => sharesBought (a / 12) (StockAnalysis.monthly_first_days data) * c),
         validBuys (StockAnalysis.monthly_first_days data)) :=
      Option.some.inj (hDCA.symm.trans (stock_dca_spec data a lastBar hlast))
    subst ePT
    subst eDCA
    refine ⟨⟨?_, ?_⟩, ?_, ?_⟩
    · show (validBuys (Rolling.yearly_lows data)).length ≤ (yearRange data).length
      calc (validBuys (Rolling.yearly_lows data)).length
          ≤ (Rolling.yearly_lows data).length := validBuys_length_le _
        _ = (yearRange data).length := by simp [Rolling.yearly_lows]
    · intro y
      show ((validBuys (Rolling.yearly_lows data)).map Prod.fst).count y ≤ 1
      have h1 := validBuys_count_le (Rolling.yearly_lows data) y
      rw [rolling_yearly_lows_labels] at h1
      exact h1.trans (List.nodup_iff_count_le_one.mp (yearRange_nodup data) y)
    · show (validBuys (StockAnalysis.monthly_first_days data)).length ≤
        (monthRange data).length
      calc (validBuys (StockAnalysis.monthly_first_days data)).length
          ≤ (StockAnalysis.monthly_first_days data).length := validBuys_length_le _
        _ = (monthRange data).length := by simp [StockAnalysis.monthly_first_days]
    · intro d
      show ((validBuys (StockAnalysis.monthly_first_days data)).map Prod.fst).count d ≤ 1
      have h1 := validBuys_count_le (StockAnalysis.monthly_first_days data) d
      rw [monthly_first_days_labels] at h1
      have h2 : ((monthRange data).map monthStart).Nodup :=
        (monthRange_nodup data).map monthStart_injective
      exact h1.trans (List.nodup_iff_count_le_one.mp h2 d)

/-- A single seven-dollar bar in February 2022. -/
def c7Bar : PriceBar := ⟨⟨2022, 2, 3⟩, some 7, some 7, some 7, some 7⟩

theorem c7_witness :
    Rolling.perfect_market_timing [c7Bar] 100 = some (some 100, [(2022, 7)]) ∧
    StockAnalysis.dollar_cost_averaging [c7Bar] 100 =
      some (some (25 / 3), [(⟨2022, 2, 1⟩, 7)]) ∧
    ((([((2022:Nat), (7:ℚ))] : List (Nat × ℚ)).length ≤ (yearRange [c7Bar]).length ∧
        ∀ y : Nat, (([((2022:Nat), (7:ℚ))] : List (Nat × ℚ)).map Prod.fst).count y ≤ 1) ∧
      (([((⟨2022, 2, 1⟩ : Date), (7:ℚ))] : List (Date × ℚ)).length ≤
          (monthRange [c7Bar]).length ∧
        ∀ d : Date,
          (([((⟨2022, 2, 1⟩ : Date), (7:ℚ))] : List (Date × ℚ)).map Prod.fst).count d ≤ 1)) := by
  have hPT : Rolling.perfect_market_timing [c7Bar] 100 =
      some (some 100, [(2022, 7)]) := by
    norm_num [c7Bar, Rolling.perfect_market_timing, Rolling.yearly_lows, yearRange,
      barsInYear, listMin, buyLoop, List.range', List.filter, List.filterMap]
  have hDCA : StockAnalysis.dollar_cost_averaging [c7Bar] 100 =
      some (some (25 / 3), [(⟨2022, 2, 1⟩, 7)]) := by
    norm_num [c7Bar, StockAnalysis.dollar_cost_averaging, StockAnalysis.monthly_first_days,
      monthRange, monthIdx, monthStart, barsInMonth, firstOpen, buyLoop, List.range',
      List.filter, List.filterMap]
  exact ⟨hPT, hDCA, c7_events_bounded [c7Bar] 100 _ _ hPT hDCA⟩

/-- C9: over a series every year bucket of which has a present, positive
minimal low strictly below its (present) first open — the well-formedness the
data model guarantees plus the claim's hypothesis — and a present, nonnegative
last close and nonnegative annual amount, the final portfolio value of
`perfect_market_timing` is at least that of `immediate_investing`
(`rolling-20year.py`). -/
theorem c9_perfect_ge_immediate (data : List PriceBar) (a c : ℚ)
    (lastBar : PriceBar) (ha : 0 ≤ a) (hlast : data.getLast? = some lastBar)
    (hclose : lastBar.close = some c) (hc : 0 ≤ c)
    (hgood : ∀ y ∈ yearRange data, goodBucket data y = true) :
    ∃ vPT vII : ℚ, ∃ pPT pII : List (Nat × ℚ),
      Rolling.perfect_market_timing data a = some (some vPT, pPT) ∧
      Rolling.immediate_investing data a = some (some vII, pII) ∧
      vII ≤ vPT := by
  refine ⟨sharesBought a (Rolling.yearly_lows data) * c,
    sharesBought a (Rolling.yearly_first_days data) * c,
    validBuys (Rolling.yearly_lows data),
    validBuys (Rolling.yearly_first_days data), ?_, ?_, ?_⟩
  · rw [rolling_pt_spec data a lastBar hlast, hclose]
    rfl
  · rw [rolling_ii_spec data a lastBar hlast, hclose]
    rfl
  · refine mul_le_mul_of_nonneg_right ?_ hc
    unfold Rolling.yearly_first_days Rolling.yearly_lows
    apply sharesBought_map_le
    intro y hy
    obtain ⟨ml, fo, h1, h2, hml, hlt⟩ := goodBucket_spec (hgood y hy)
    exact ⟨ml, fo, h1, h2, div_le_div_of_nonneg_left ha hml hlt.le⟩

/-- A single bar in January 2020 with low 8 strictly below open 10. -/
def c9Bar : PriceBar := ⟨⟨2020, 1, 2⟩, some 10, some 11, some 8, some 12⟩

theorem c9_witness :
    (0:ℚ) ≤ 100 ∧ ([c9Bar].getLast? = some c9Bar) ∧ c9Bar.close = some 12 ∧
    (0:ℚ) ≤ 12 ∧ (∀ y ∈ yearRange [c9Bar], goodBucket [c9Bar] y = true) ∧
    (∃ vPT vII : ℚ, ∃ pPT pII : List (Nat × ℚ),
      Rolling.perfect_market_timing [c9Bar] 100 = some (some vPT, pPT) ∧
      Rolling.immediate_investing [c9Bar] 100 = some (some vII, pII) ∧
      vII ≤ vPT) := by
  have hgood : ∀ y ∈ yearRange [c9Bar], goodBucket [c9Bar] y = true := by decide
  exact ⟨by norm_num, rfl, rfl, by norm_num, hgood,
    c9_perfect_ge_immediate [c9Bar] 100 12 c9Bar (by norm_num) rfl rfl
      (by norm_num) hgood⟩

/-- C10: in `stock-analysis.py:immediate_investing` the buy events are exactly
the non-empty year buckets, and the recorded date of every event is the bucket
period's start `⟨year, 1, 1⟩` (January 1) — not the date of the bar whose open
was used — so it can be a non-trading day absent from the series. -/
theorem c10_period_start_dates (data : List PriceBar) (a : ℚ)
    (r : Option ℚ × List (Date × ℚ))
    (h : StockAnalysis.immediate_investing data a = some r) :
    r.2 = (StockAnalysis.yearly_first_days data).filterMap
        (fun row => row.2.map (fun p => ((⟨row.1, 1, 1⟩ : Date), p))) ∧
    ∀ d p, (d, p) ∈ r.2 → d.month = 1 ∧ d.day = 1 := by
  rcases hlast : data.getLast? with _ | lastBar
  · exfalso
    unfold StockAnalysis.immediate_investing at h
    rw [hlast] at h
    exact Option.noConfusion h
  · have er : r =
        (lastBar.close.map
          (fun c => sharesBought a
            ((StockAnalysis.yearly_first_days data).map
              (fun row => ((⟨row.1, 1, 1⟩ : Date), row.2))) * c),
         validBuys ((StockAnalysis.yearly_first_days data).map
           (fun row => ((⟨row.1, 1, 1⟩ : Date), row.2)))) :=
      Option.some.inj (h.symm.trans (stock_ii_spec data a lastBar hlast))
    have hch : r.2 = (StockAnalysis.yearly_first_days data).filterMap
        (fun row => row.2.map (fun p => ((⟨row.1, 1, 1⟩ : Date), p))) := by
      rw [er]
      exact validBuys_map_label (fun y => (⟨y, 1, 1⟩ : Date)) _
    refine ⟨hch, ?_⟩
    intro d p hmem
    rw [hch, List.mem_filterMap] at hmem
    obtain ⟨row, _, heq⟩ := hmem
    obtain ⟨q, _, hpair⟩ := Option.map_eq_some'.mp heq
    rw [Prod.mk.injEq] at hpair
    obtain ⟨hd, _⟩ := hpair
    subst hd
    exact ⟨rfl, rfl⟩

/-- A single bar on 2020-03-05 (a day other than January 1). -/
def c10Bar : PriceBar := ⟨⟨2020, 3, 5⟩, some 10, some 10, some 10, some 11⟩

theorem c10_witness :
    StockAnalysis.immediate_investing [c10Bar] 100 =
      some (some 110, [(⟨2020, 1, 1⟩, 10)]) ∧
    (([((⟨2020, 1, 1⟩ : Date), (10:ℚ))] : List (Date × ℚ)) =
        (StockAnalysis.yearly_first_days [c10Bar]).filterMap
          (fun row => row.2.map (fun p => ((⟨row.1, 1, 1⟩ : Date), p))) ∧
      ∀ d p, (d, p) ∈ ([((⟨2020, 1, 1⟩ : Date), (10:ℚ))] : List (Date × ℚ)) →
        d.month = 1 ∧ d.day = 1) ∧
    (∀ b ∈ [c10Bar], b.date ≠ ⟨2020, 1, 1⟩) := by
  have h : StockAnalysis.immediate_investing [c10Bar] 100 =
      some (some 110, [(⟨2020, 1, 1⟩, 10)]) := by
    norm_num [c10Bar, StockAnalysis.immediate_investing, StockAnalysis.yearly_first_days,
      groupYears, firstOpen, barsInYear, buyLoop, List.filter, List.filterMap, List.foldl]
  exact ⟨h, c10_period_start_dates [c10Bar] 100 _ h, by decide⟩
